import Mathlib

/-!
Verification of the `pyfixest` single-model estimation core (`pyfixest/feols.py`).

A shallow embedding of the `Feols` estimation pipeline: the OLS/IV point estimator
(`get_fit`), the covariance estimator (`get_vcov`) with its iid / hetero (HC1-HC3) /
cluster-robust (CRV1, CRV3 jackknife) regimes, the inference summariser
(`get_inference`), the F-test (`get_Ftest`), and the input-validation helpers
(`_check_vcov_input`, `_deparse_vcov_input`, `_feols_input_checks`).

Conventions of the embedding:
* numpy arrays become Mathlib matrices over `ℝ`; `np.sqrt` is `Real.sqrt`;
* `np.linalg.inv` / `np.linalg.solve` are modelled with Mathlib's matrix inverse
  (`A⁻¹ = Ring.inverse A.det • A.adjugate`); numpy raises `LinAlgError` on a singular
  input, so theorems about values carry `det ≠ 0` hypotheses where relevant
  (`np.linalg.pinv` coincides with the inverse on invertible matrices, the only case
  evaluated by the theorems below);
* Python exceptions become an `Except PyErr` result: the embedded `get_vcov` returns
  the mutated object state (the attributes it writes) together with the outcome, so
  the state left behind by a raising call is observable;
* a Python local variable that may be read before assignment is modelled as an
  `Option`, with a read of `none` producing `PyErr.unboundLocalError`;
* external collaborators that live outside this file of the repository
  (`get_ssc` from `pyfixest.ssc_utils`, the `Fixest` refit used by the CRV3
  fixed-effects path, and the scipy distribution functions) are passed in as
  function parameters, as documented at their binding sites.
-/

namespace PyFixest

open Matrix

/-- Real matrices of shape m × n, the embedding of 2-dimensional numpy arrays. -/
abbrev Mat (m n : ℕ) : Type := Matrix (Fin m) (Fin n) ℝ

/-- The Python exception kinds that the code in `feols.py` can surface. -/
inductive PyErr where
  /-- a failed `assert` statement -/
  | assertionError
  /-- attribute access on `None` (e.g. `None.columns`, `None.values()`) -/
  | attributeError
  /-- a local variable read before any assignment on the taken path -/
  | unboundLocalError
  /-- `pyfixest.exceptions.VcovTypeNotSupportedError` -/
  | vcovTypeNotSupportedError
  /-- `pyfixest.exceptions.NanInClusterVarError` -/
  | nanInClusterVarError
  /-- `NotImplementedError` -/
  | notImplementedError
  /-- `ValueError` (shape checks in `_feols_input_checks`) -/
  | valueError
  deriving DecidableEq

/-- The `vcov` argument of `Feols.get_vcov`: a string tag, a single-entry
`{kind: clustervar}` dict, or a list of column names. -/
inductive VcovArg where
  | str (s : String)
  | dict (key val : String)
  | list (cols : List String)
  deriving DecidableEq

/-- The slice of the pandas DataFrame `self._data` that `get_vcov` touches: the
column names, and for each column its per-observation values. A cluster column
holds labels (`some v`) or missing values (`none`, numpy NaN). Labels are natural
numbers; `pd.Categorical`/`pd.factorize` sort the distinct labels. -/
structure DataD (N : ℕ) where
  cols : List String
  col : String → Fin N → Option ℕ

/-- `_feols_input_checks` (feols.py lines 880-902): the `isinstance(_, np.ndarray)`
checks are type-level in this embedding; what remains observable is that each of
`Y`, `X`, `weights` must be 2-dimensional (`.ndim == 2`).  No row-count agreement
between the three arrays is checked. -/
def feolsInputChecks (yNdim xNdim wNdim : ℕ) : Except PyErr Unit :=
  if yNdim ≠ 2 then .error .valueError
  else if xNdim ≠ 2 then .error .valueError
  else if wNdim ≠ 2 then .error .valueError
  else .ok ()

/-- `_check_vcov_input` (feols.py lines 791-825).  A failed `assert` is
`PyErr.assertionError`.  The dict and (non-empty) list branches read
`data.columns`, which is an `AttributeError` when `self._data` is `None`. -/
def checkVcovInput {N : ℕ} (arg : VcovArg) (data : Option (DataD N)) :
    Except PyErr Unit :=
  match arg with
  | .str s =>
      if s ∈ ["iid", "hetero", "HC1", "HC2", "HC3"] then .ok ()
      else .error .assertionError
  | .dict key val =>
      if key ∈ ["CRV1", "CRV3"] then
        -- the dict value is a string by the type of `VcovArg.dict`
        match data with
        | none => .error .attributeError
        | some d => if val ∈ d.cols then .ok () else .error .assertionError
  else .error .assertionError
  | .list l =>
      -- `all(isinstance(v, str) ...)` holds by the type of `VcovArg.list`;
      -- `all(v in data.columns ...)` only touches `data` when the list is non-empty
      match data with
      | none => if l = [] then .ok () else .error .attributeError
      | some d => if ∀ v ∈ l, v ∈ d.cols then .ok () else .error .assertionError

/-- The union type `str | list` that `vcov_type_detail` ranges over in
`_deparse_vcov_input`. -/
abbrev DetailU : Type := String ⊕ List String

/-- `_deparse_vcov_input` (feols.py lines 828-877).  Mirrors the Python
control flow: `vcov_type` and `is_clustered` start unassigned (`none`); if the
detail tag matches no branch of the if-chain they stay unassigned, and the final
`if is_clustered:` then reads an unbound local (`PyErr.unboundLocalError`).
This is exactly what happens for a list-valued `vcov`.  A clustered detail with a
non-dict argument would call `.values()` on it (`AttributeError`). -/
def deparseVcovInput (arg : VcovArg) (has_fixef is_iv : Bool) :
    Except PyErr (String × DetailU × Bool × Option String) :=
  let detail : DetailU :=
    match arg with
    | .dict key _ => Sum.inl key
    | .list l => Sum.inr l
    | .str s => Sum.inl s
  let step : Except PyErr (Option String × Option Bool) :=
    if detail = Sum.inl "iid" then .ok (some "iid", some false)
    else if detail = Sum.inl "hetero" ∨ detail = Sum.inl "HC1" ∨
        detail = Sum.inl "HC2" ∨ detail = Sum.inl "HC3" then
      if (detail = Sum.inl "HC2" ∨ detail = Sum.inl "HC3") ∧ has_fixef = true then
        .error .vcovTypeNotSupportedError
      else if (detail = Sum.inl "HC2" ∨ detail = Sum.inl "HC3") ∧ is_iv = true then
        .error .vcovTypeNotSupportedError
      else .ok (some "hetero", some false)
    else if detail = Sum.inl "CRV1" ∨ detail = Sum.inl "CRV3" then
      .ok (some "CRV", some true)
    else .ok (none, none)
  match step with
  | .error e => .error e
  | .ok (vcovType?, isClustered?) =>
    match vcovType?, isClustered? with
    | some vt, some b =>
        if b then
          match arg with
          | .dict _ v => .ok (vt, detail, b, some v)
          | _ => .error .attributeError
        else .ok (vt, detail, b, none)
    | _, _ => .error .unboundLocalError

/-- The result record of `Feols.get_fit` (feols.py lines 94-126): the attributes
it sets (the IV-only attributes `tXZ`, `tZZinv` are reset to `None` there and are
not part of this record). -/
structure FitRes (N k : ℕ) where
  tZX : Mat k k
  tZy : Mat k 1
  tZXinv : Mat k k
  beta_hat : Fin k → ℝ
  Y_hat_link : Fin N → ℝ
  u_hat : Fin N → ℝ
  scores : Mat N k
  hessian : Mat k k

/-- `Feols.get_fit` (feols.py lines 94-126).  `np.linalg.solve(tZX, tZy)` is the
unique solution of `(Z'X) β = Z'y`, i.e. `(Z'X)⁻¹ (Z'y)` for invertible `Z'X`
(numpy raises on a singular matrix — the preceding `np.linalg.inv(self.tZX)` call
already does — so theorems about the produced values assume `det (Z'X) ≠ 0`). -/
noncomputable def getFit {N k : ℕ} (Y : Mat N 1) (X Z : Mat N k) : FitRes N k :=
  let tZX := Zᵀ * X
  let tZy := Zᵀ * Y
  let tZXinv := tZX⁻¹
  let beta_hat : Fin k → ℝ := fun j => (tZXinv * tZy) j 0
  let Y_hat_link : Fin N → ℝ := X.mulVec beta_hat
  let u_hat : Fin N → ℝ := fun i => Y i 0 - Y_hat_link i
  { tZX := tZX
    tZy := tZy
    tZXinv := tZXinv
    beta_hat := beta_hat
    Y_hat_link := Y_hat_link
    u_hat := u_hat
    scores := fun i j => Z i j * u_hat i
    hessian := Zᵀ * Z }

/-- The slice of a `Feols` object's state that `get_vcov` reads and writes.
Fields up to `tZZinv` are set by `__init__`/`get_fit`/the enclosing layer and are
only read; the fields from `vcov_type` on are (re)written by `get_vcov`.
`weights` is `self.weights` flattened (only ever read flattened, on the CRV1
path); `tXZ`/`tZZinv` are `None` for plain OLS objects and hold `X'Z` and
`(Z'Z)⁻¹` for IV objects — they are only read on `is_iv` paths, so the embedding
types them as plain matrices (junk for OLS). -/
structure FeolsSt (N k : ℕ) where
  Y : Mat N 1
  X : Mat N k
  Z : Mat N k
  weights : Option (Fin N → ℝ)
  data : Option (DataD N)
  has_fixef : Bool
  is_iv : Bool
  method : String
  support_iid_inference : Bool
  support_crv3_inference : Bool
  beta_hat : Fin k → ℝ
  u_hat : Fin N → ℝ
  scores : Mat N k
  hessian : Mat k k
  tZX : Mat k k
  tZXinv : Mat k k
  tXZ : Mat k k
  tZZinv : Mat k k
  vcov_type : Option String
  vcov_type_detail : Option DetailU
  is_clustered : Option Bool
  clustervar : Option String
  G : Option ℕ
  ssc : Option ℝ
  vcov : Option (Mat k k)

/-- `leverage = np.sum(_X * (_X @ _tZXinv), axis=1)` (feols.py line 242): the
per-observation diagonal of the projection matrix, computed from the precomputed
`self.tZXinv` (which is `(X'X)⁻¹` for the non-IV models this branch allows). -/
def leverageF {N k : ℕ} (X : Mat N k) (tZXinv : Mat k k) : Fin N → ℝ :=
  fun i => ∑ j, X i j * (X * tZXinv) i j

/-- HC2 transformed scores: `_scores / np.sqrt(1 - leverage)[:, None]`
(feols.py line 245). -/
noncomputable def hc2Scores {N k : ℕ} (scores : Mat N k) (lev : Fin N → ℝ) : Mat N k :=
  fun i j => scores i j / Real.sqrt (1 - lev i)

/-- HC2 transformed residuals: `u = _u_hat / np.sqrt(1 - leverage)`
(feols.py line 244).  Computed by the code but, for non-IV models, not used in
the HC2 covariance matrix. -/
noncomputable def hc2Resid {N : ℕ} (u_hat : Fin N → ℝ) (lev : Fin N → ℝ) : Fin N → ℝ :=
  fun i => u_hat i / Real.sqrt (1 - lev i)

/-- HC3 transformed scores: `_scores / (1 - leverage)[:, None]`
(feols.py line 247). -/
noncomputable def hc3Scores {N k : ℕ} (scores : Mat N k) (lev : Fin N → ℝ) : Mat N k :=
  fun i j => scores i j / (1 - lev i)

/-- The per-observation labels of a cluster column after the `isna` guard has
passed (every value is `some`): `(colv i).getD 0` is then exact. -/
def clusterLabels {N : ℕ} (colv : Fin N → Option ℕ) : Fin N → ℕ :=
  fun i => (colv i).getD 0

/-- `_, clustid = pd.factorize(cluster_df)` on a `pd.Categorical` column: the
sorted list of distinct labels. -/
def clustidOf {N : ℕ} (colv : Fin N → Option ℕ) : List ℕ :=
  (Finset.image (clusterLabels colv) Finset.univ).sort (· ≤ ·)

/-- The CRV1 meat (feols.py lines 287-305): for each cluster label `g`,
`score_g = Zg' @ ug` over the rows `np.where(cluster_df == g)`, and
`meat = Σ_g score_g @ score_g'`. -/
def crv1Meat {N k : ℕ} (Z : Mat N k) (wu : Fin N → ℝ) (labels : Fin N → ℕ)
    (clustid : List ℕ) : Mat k k :=
  (clustid.map (fun g =>
    let scoreg : Fin k → ℝ :=
      fun j => ∑ i ∈ Finset.univ.filter (fun i => labels i = g), Z i j * wu i
    Matrix.vecMulVec scoreg scoreg)).sum

/-- `tXgXg = np.transpose(Xg) @ Xg` over the rows selected by `np.equal(v, group)`
(feols.py lines 350, 352). -/
def crv3MaskXX {N k : ℕ} (X : Mat N k) (labels : Fin N → ℕ) (v : ℕ) : Mat k k :=
  fun j l => ∑ i ∈ Finset.univ.filter (fun i => labels i = v), X i j * X i l

/-- `np.transpose(Xg) @ Yg` over the rows selected by `np.equal(v, group)`
(feols.py lines 351, 355). -/
def crv3MaskXy {N k : ℕ} (X : Mat N k) (Y : Mat N 1) (labels : Fin N → ℕ)
    (v : ℕ) : Fin k → ℝ :=
  fun j => ∑ i ∈ Finset.univ.filter (fun i => labels i = v), X i j * Y i 0

/-- One leave-rows-out regression coefficient of the CRV3 jackknife
(feols.py lines 345-356): `pinv(tXX - tXgXg) @ (tXy - Xg'Yg)`, where the removed
rows are those selected by `np.equal(v, group)`, i.e. the rows whose cluster
label equals the value `v` compared against the column.  In the code that value
is the loop **enumeration index** `ixg`, not the cluster label `g` bound (and
never used) in the same `for ixg, g in enumerate(clusters)` header.
`np.linalg.pinv` is modelled by the matrix inverse (they agree on invertible
matrices, the only case the theorems below evaluate). -/
noncomputable def crv3LooBeta {N k : ℕ} (X : Mat N k) (Y : Mat N 1)
    (labels : Fin N → ℕ) (v : ℕ) : Fin k → ℝ :=
  fun j => (((Xᵀ * X) - crv3MaskXX X labels v)⁻¹ *
    Matrix.of (fun l (_ : Fin 1) => (Xᵀ * Y) l 0 - crv3MaskXy X Y labels v l)) j 0

/-- The CRV3 covariance (feols.py lines 376-383): `ssc · Σ_{ixg < G}
(β_jack[ixg] − β_center)(β_jack[ixg] − β_center)'` with `β_center = beta_hat`
(the full-sample estimate, per line 376). -/
def crv3VcovF {k : ℕ} (ssc : ℝ) (betaJack : ℕ → Fin k → ℝ) (beta : Fin k → ℝ)
    (G : ℕ) : Mat k k :=
  ssc • ∑ ixg ∈ Finset.range G,
    Matrix.vecMulVec (fun j => betaJack ixg j - beta j) (fun j => betaJack ixg j - beta j)

/-- `Feols.get_vcov` (feols.py lines 128-383), as a function from the object
state and the `vcov` argument to the post-call state and the call outcome.

External collaborators are parameters:
* `getSsc` — Modelled from the spec: `get_ssc` from `pyfixest.ssc_utils` (not in
  the analysed file) is "a small-sample-correction function taking
  `(N, k, G, vcov_type)` and returning a scalar"; the constant `vcov_sign=1`
  argument is absorbed.
* `refit` — Modelled from the spec: the CRV3 fixed-effects path refits the whole
  model through `pyfixest.fixest.Fixest` (not in the analysed file) on the data
  with the rows `np.equal(ixg, group)` removed and takes its coefficients;
  `refit ixg` stands for that external call's coefficient vector.

Notes kept from the source:
* lines 173-179 null out the result attributes before any validation;
* the line 190-194 guard `if _is_iv: if self.vcov_type in ["CRV3"]` is dead code
  (`vcov_type` is `"CRV"` for clustered requests, never `"CRV3"`); the embedding
  keeps it, with the conjunction's operands ordered so that the decidable string
  test comes first;
* line 240 computes `tXXinv` and never uses it (omitted);
* line 244 rescales the residuals into a local `u` on the HC2 path (`hc2Resid`);
  `u` is only consumed on the IV sub-branch, which HC2 can never reach, so the
  dead local is not threaded through here;
* in the hetero/HC1 IV branch the code reshapes `u` before building `Omega` from
  the transformed scores; the reshape has no semantic content here;
* the unreachable fall-through cases (a `vcov_type` outside the three tags)
  return with `self.vcov` still `None` and no exception, as in Python. -/
noncomputable def getVcovF {N k : ℕ} (getSsc : ℕ → ℕ → ℕ → String → ℝ)
    (refit : ℕ → Fin k → ℝ) (st : FeolsSt N k) (arg : VcovArg) :
    FeolsSt N k × Except PyErr Unit :=
  let st1 := { st with
    vcov_type := none
    vcov_type_detail := none
    is_clustered := none
    clustervar := none
    G := none
    ssc := none
    vcov := none }
  match checkVcovInput arg st.data with
  | .error e => (st1, .error e)
  | .ok _ =>
    match deparseVcovInput arg st.has_fixef st.is_iv with
    | .error e => (st1, .error e)
    | .ok (vt, dt, ic, cv) =>
      let st2 := { st1 with
        vcov_type := some vt
        vcov_type_detail := some dt
        is_clustered := some ic
        clustervar := cv }
      if vt = "CRV3" ∧ st.is_iv = true then
        (st2, .error .vcovTypeNotSupportedError)
      else
        let bread : Mat k k :=
          if st.is_iv = true then (st.tXZ * st.tZZinv * st.tZX)⁻¹ else st.hessian⁻¹
        if vt = "iid" then
          if st.support_iid_inference = false then (st2, .error .notImplementedError)
          else
            let ssc := getSsc N k 1 "iid"
            let sigma2 := (∑ i, st.u_hat i ^ 2) / ((N : ℝ) - 1)
            ({ st2 with ssc := some ssc, vcov := some ((ssc * sigma2) • bread) }, .ok ())
        else if vt = "hetero" then
          let ssc := getSsc N k 1 "hetero"
          let st3 := { st2 with ssc := some ssc }
          if dt = Sum.inl "hetero" ∨ dt = Sum.inl "HC1" then
            let ts := st.scores
            if st.is_iv = false then
              ({ st3 with vcov := some (ssc • (bread * (tsᵀ * ts) * bread)) }, .ok ())
            else
              let Omega := tsᵀ * ts
              let meat := st.tXZ * st.tZZinv * Omega * st.tZZinv * st.tZX
              ({ st3 with vcov := some (ssc • (bread * meat * bread)) }, .ok ())
          else
            -- HC2 / HC3
            if st.is_iv = true then (st3, .error .vcovTypeNotSupportedError)
            else
              let lev := leverageF st.X st.tZXinv
              let ts := if dt = Sum.inl "HC2" then hc2Scores st.scores lev
                        else hc3Scores st.scores lev
              ({ st3 with vcov := some (ssc • (bread * (tsᵀ * ts) * bread)) }, .ok ())
        else if vt = "CRV" then
          match st.data, cv with
          | some d, some c =>
            let colv := d.col c
            if ∃ i, colv i = none then (st2, .error .nanInClusterVarError)
            else
              let labels := clusterLabels colv
              let clustid := clustidOf colv
              let G := clustid.length
              let ssc := getSsc N k G "CRV"
              let st3 := { st2 with G := some G, ssc := some ssc }
              if dt = Sum.inl "CRV1" then
                let wu : Fin N → ℝ :=
                  match st.weights with
                  | some w => fun i => w i * st.u_hat i
                  | none => st.u_hat
                let meat := crv1Meat st.Z wu labels clustid
                if st.is_iv = false then
                  ({ st3 with vcov := some (ssc • (bread * meat * bread)) }, .ok ())
                else
                  let meat2 := st.tXZ * st.tZZinv * meat * st.tZZinv * st.tZX
                  ({ st3 with vcov := some (ssc • (bread * meat2 * bread)) }, .ok ())
              else if dt = Sum.inl "CRV3" then
                if st.is_iv = true then (st3, .error .vcovTypeNotSupportedError)
                else if st.support_crv3_inference = false then
                  (st3, .error .notImplementedError)
                else
                  let betaJack : ℕ → Fin k → ℝ :=
                    if st.has_fixef = false then
                      fun ixg => crv3LooBeta st.X st.Y labels ixg
                    else refit
                  ({ st3 with vcov := some (crv3VcovF ssc betaJack st.beta_hat G) }, .ok ())
              else (st3, .ok ())
          | _, _ => (st2, .error .attributeError)
        else (st2, .ok ())

/-- The result of `Feols.get_inference`: the attributes `_se`, `_tstat`,
`_pvalue` and the two rows of `conf_int`. -/
structure InfRes (kk : ℕ) where
  se : Fin kk → ℝ
  tstat : Fin kk → ℝ
  pvalue : Fin kk → ℝ
  conf_low : Fin kk → ℝ
  conf_high : Fin kk → ℝ

/-- `Feols.get_inference` (feols.py lines 385-431).  The scipy distribution
functions are external to the repository and are passed in: `tcdf x df` and
`tppf p df` stand for `scipy.stats.t.cdf(x, df)` / `t.ppf(p, df)`, and `ncdf` /
`nppf` for the standard-normal `norm.cdf` / `norm.ppf`.  `G` is `self.G`, which
is `None` unless a clustered vcov was computed; the code only reads it on the
clustered branch (reading `None` there would be a `TypeError`), modelled with
`Option.getD`. -/
noncomputable def getInferenceF {kk : ℕ} (tcdf : ℝ → ℤ → ℝ) (tppf : ℝ → ℤ → ℝ)
    (ncdf : ℝ → ℝ) (nppf : ℝ → ℝ) (vcov : Mat kk kk) (beta_hat : Fin kk → ℝ)
    (vcov_type : String) (N k : ℕ) (G : Option ℕ) (method : String) (alpha : ℝ) :
    InfRes kk :=
  let se : Fin kk → ℝ := fun i => Real.sqrt (vcov i i)
  let tstat : Fin kk → ℝ := fun i => beta_hat i / se i
  let df : ℤ :=
    if vcov_type = "iid" ∨ vcov_type = "hetero" then (N : ℤ) - (k : ℤ)
    else ((G.getD 0 : ℕ) : ℤ) - 1
  let pvalue : Fin kk → ℝ := fun i =>
    if method = "feols" then 2 * (1 - tcdf |tstat i| df)
    else 2 * (1 - ncdf |tstat i|)
  let z : ℝ :=
    if method = "feols" then |tppf ((1 - alpha) / 2) df|
    else |nppf ((1 - alpha) / 2)|
  { se := se
    tstat := tstat
    pvalue := pvalue
    conf_low := fun i => beta_hat i - z * se i
    conf_high := fun i => beta_hat i + z * se i }

/-- Assemble a fitted `Feols` object state: `__init__` (with `self.Z = X` for
plain OLS; for an IV object the enclosing layer supplies `Z`, `tXZ`, `tZZinv`
and sets `_is_iv`), followed by `get_fit`, followed by the attribute enrichment
(`_data`, `_has_fixef`) done by the enclosing layer.  `method` is `"feols"` and
both inference-support flags are `True`, as set by `Feols.__init__`. -/
noncomputable def mkFeolsSt {N k : ℕ} (Y : Mat N 1) (X Z : Mat N k)
    (weights : Option (Fin N → ℝ)) (data : Option (DataD N))
    (has_fixef is_iv : Bool) (tXZ tZZinv : Mat k k) : FeolsSt N k :=
  let F := getFit Y X Z
  { Y := Y
    X := X
    Z := Z
    weights := weights
    data := data
    has_fixef := has_fixef
    is_iv := is_iv
    method := "feols"
    support_iid_inference := true
    support_crv3_inference := true
    beta_hat := F.beta_hat
    u_hat := F.u_hat
    scores := F.scores
    hessian := F.hessian
    tZX := F.tZX
    tZXinv := F.tZXinv
    tXZ := tXZ
    tZZinv := tZZinv
    vcov_type := none
    vcov_type_detail := none
    is_clustered := none
    clustervar := none
    G := none
    ssc := none
    vcov := none }

/-- The first-stage covariance computed inside `Feols.get_Ftest` for an IV model
(feols.py lines 446-450): `first_stage = Feols(self.Y, self.Z, self.Z)` — a fresh
object (no data, no fixed effects, `_is_iv = False`) regressing `Y` on the
instruments; then `get_fit` and `get_vcov(vcov)`, and the resulting
`first_stage.vcov`.  The third `Feols` argument is the `weights` slot, which the
constructor stores as `self.weights = Z`; `weights` is only ever read on the
CRV1 path, which a fresh object without data cannot reach, so it is modelled as
`none` here. -/
noncomputable def firstStageVcovF {N k : ℕ} (getSsc : ℕ → ℕ → ℕ → String → ℝ)
    (refit : ℕ → Fin k → ℝ) (st : FeolsSt N k) (arg : VcovArg) :
    Option (Mat k k) :=
  (getVcovF getSsc refit (mkFeolsSt st.Y st.Z st.Z none none false false 0 0) arg).1.vcov

/-- `Feols.get_Ftest` (feols.py lines 433-454): `R` is a row of ones, `q = 0`,
`Rbetaq = R @ beta - q`; for an IV model the first-stage covariance is computed
and bound to the local variable `vcov` — which the final statement never reads:
`self.F_stat = Rbetaq @ np.linalg.inv(R @ self.vcov @ R.T) @ Rbetaq` uses
`self.vcov` in every case.  `self.vcov` must already be set (reading `None`
would be a `TypeError`), modelled with `Option.getD`. -/
noncomputable def getFtestF {N k : ℕ} (getSsc : ℕ → ℕ → ℕ → String → ℝ)
    (refit : ℕ → Fin k → ℝ) (st : FeolsSt N k) (arg : VcovArg) : ℝ :=
  let R : Mat 1 k := fun _ _ => 1
  let q : ℝ := 0
  let Rbetaq : ℝ := (∑ j, st.beta_hat j) - q
  let localVcov : Option (Mat k k) :=
    if st.is_iv = true then firstStageVcovF getSsc refit st arg else st.vcov
  let _ := localVcov
  Rbetaq * ((R * st.vcov.getD 0 * Rᵀ) 0 0)⁻¹ * Rbetaq

/-- Modelled from the spec: the F-test behaviour the specification describes for
IV models — "refits a first-stage regression using instruments as regressors to
obtain the VCOV to test against", i.e. the tested matrix `V` is the first-stage
covariance, not `self.vcov`.  Stated for comparison with `getFtestF`. -/
noncomputable def getFtestSpecIV {N k : ℕ} (getSsc : ℕ → ℕ → ℕ → String → ℝ)
    (refit : ℕ → Fin k → ℝ) (st : FeolsSt N k) (arg : VcovArg) : ℝ :=
  let R : Mat 1 k := fun _ _ => 1
  let q : ℝ := 0
  let Rbetaq : ℝ := (∑ j, st.beta_hat j) - q
  let V : Mat k k := (firstStageVcovF getSsc refit st arg).getD 0
  Rbetaq * ((R * V * Rᵀ) 0 0)⁻¹ * Rbetaq

/-- Modelled from the spec: the CRV3 covariance the specification describes —
"for each cluster g, recompute `β_(−g)` by … subtracting the cluster's
contribution then solving the reduced normal equations", then
"VCOV = `ssc · Σ_g (β_(−g) − β)(β_(−g) − β)'`".  Each summand removes the rows
whose **label** is `g` (the per-cluster solve `crv3LooBeta` is shared with the
code embedding; the code applies it to the enumeration index instead). -/
noncomputable def crv3SpecVcov {N k : ℕ} (ssc : ℝ) (X : Mat N k) (Y : Mat N 1)
    (labels : Fin N → ℕ) (clustid : List ℕ) (beta : Fin k → ℝ) : Mat k k :=
  ssc • (clustid.map (fun g =>
    Matrix.vecMulVec (fun j => crv3LooBeta X Y labels g j - beta j)
      (fun j => crv3LooBeta X Y labels g j - beta j))).sum

/-! ### Concrete instances used by the counterexamples and witnesses below.
`sscOne` instantiates the external small-sample-correction function with the
constant 1 (its value is irrelevant to the facts being checked); `refitZero`
instantiates the external fixed-effects refit oracle, which no evaluated path
reaches (`has_fixef = false` throughout). -/

def sscOne : ℕ → ℕ → ℕ → String → ℝ := fun _ _ _ _ => 1

def refitZero {k : ℕ} : ℕ → Fin k → ℝ := fun _ _ => 0

/-- Intercept-only design on 4 observations. -/
def X41 : Mat 4 1 := !![1; 1; 1; 1]

/-- Response `[0, 1, 2, 3]`. -/
def Y41 : Mat 4 1 := !![0; 1; 2; 3]

/-- Cluster labels `[0, 0, 1, 1]`: two clusters, labelled by their own
factorize enumeration indices. -/
def labA : Fin 4 → ℕ := ![0, 0, 1, 1]

/-- Cluster labels `[5, 5, 7, 7]`: the same partition as `labA`, relabelled. -/
def labB : Fin 4 → ℕ := ![5, 5, 7, 7]

/-- A one-column DataFrame holding the given cluster labels under `"cl"`. -/
def dataOf4 (lab : Fin 4 → ℕ) : DataD 4 :=
  { cols := ["cl"], col := fun s i => if s = "cl" then some (lab i) else none }

/-- Fitted OLS state: `Y41` on `X41`, unit weights, clusters `labA`. -/
noncomputable def stA : FeolsSt 4 1 :=
  mkFeolsSt Y41 X41 X41 (some fun _ => 1) (some (dataOf4 labA)) false false 0 0

/-- As `stA` but with the relabelled clusters `labB`. -/
noncomputable def stB : FeolsSt 4 1 :=
  mkFeolsSt Y41 X41 X41 (some fun _ => 1) (some (dataOf4 labB)) false false 0 0

/-- As `stA` but with every weight equal to 2 instead of 1. -/
noncomputable def stW2 : FeolsSt 4 1 := { stA with weights := some fun _ => 2 }

/-- Design `[[1], [0]]` on 2 observations: its first leverage is exactly 1. -/
def X21 : Mat 2 1 := !![1; 0]

/-- Response `[1, 0]`, a perfect fit for `X21`. -/
def Y21 : Mat 2 1 := !![1; 0]

/-- Fitted OLS state for the leverage-one design. -/
noncomputable def stHC : FeolsSt 2 1 :=
  mkFeolsSt Y21 X21 X21 (some fun _ => 1) none false false 0 0

/-- Response `[1, 3]` for the two-observation IV example. -/
def Yiv : Mat 2 1 := !![1; 3]

/-- Instrument column of ones for the two-observation IV example. -/
def Ziv : Mat 2 1 := !![1; 1]

/-- An IV-flagged state whose stored covariance is `[[4]]`, while its
first-stage iid covariance works out to `[[1]]`. -/
noncomputable def stIV : FeolsSt 2 1 :=
  { mkFeolsSt Yiv Ziv Ziv none none false true 0 0 with vcov := some !![4] }

/-- A state carrying a previously computed covariance `[[99]]`, used to check
that a failing `get_vcov` call erases it. -/
noncomputable def stPrev : FeolsSt 2 1 := { stHC with vcov := some !![99] }

/-- Design `[[1], [2]]` used to instantiate the point-estimator theorem. -/
def Xw : Mat 2 1 := !![1; 2]

/-- Response `[1, 2]` used to instantiate the point-estimator theorem. -/
def Yw : Mat 2 1 := !![1; 2]

/-- An unsupported request combination: the strings `"HC2"`/`"HC3"` on an IV or
fixed-effects model, or a `{"CRV3": c}` request on an IV model whose cluster
column `c` exists and has no missing values (a missing value raises
`NanInClusterVarError` first, at feols.py line 268, before the CRV3/IV guard at
line 323 is reached). -/
def BadCombo {N k : ℕ} (st : FeolsSt N k) (arg : VcovArg) : Prop :=
  ((arg = .str "HC2" ∨ arg = .str "HC3") ∧ (st.is_iv = true ∨ st.has_fixef = true))
  ∨ (∃ c d, arg = .dict "CRV3" c ∧ st.is_iv = true ∧ st.data = some d ∧
      c ∈ d.cols ∧ ∀ i, d.col c i ≠ none)

/-- The `vcov` arguments whose `get_vcov` computation never reads
`self.weights`: every string tag, every `{"CRV3": c}` dict, and every list
(only the CRV1 branch, reached by `{"CRV1": c}` dicts, reads the weights). -/
def WeightsFreeArg (arg : VcovArg) : Prop :=
  (∃ s, arg = .str s) ∨ (∃ c, arg = .dict "CRV3" c) ∨ (∃ l, arg = .list l)

/-- The attribute reset performed at the top of `get_vcov` (feols.py lines
173-179), before any validation of the request. -/
def resetVcovFields {N k : ℕ} (st : FeolsSt N k) : FeolsSt N k :=
  { st with
    vcov_type := none
    vcov_type_detail := none
    is_clustered := none
    clustervar := none
    G := none
    ssc := none
    vcov := none }

/-- As `stHC` but flagged as having fixed effects, for exercising the HC2 /
fixed-effects rejection. -/
noncomputable def stFE : FeolsSt 2 1 := { stHC with has_fixef := true }

/-! ## Theorems -/

/-- C1: with `Z = X` and full-rank `X` (invertible `X'X`), `get_fit` solves
`(Z'X) β = Z'Y`, hence `β` satisfies the normal equations `X'X β = X'Y`, the
residual vector satisfies `X'(Y − Xβ) = 0`, the score matrix has row `i` equal
to `Z_i · u_i`, and the information matrix is `Z'Z`. -/
theorem getFit_solves_normal_equations {N k : ℕ} (Y : Mat N 1) (X : Mat N k)
    (hdet : (Xᵀ * X).det ≠ 0) :
    (Xᵀ * X).mulVec (getFit Y X X).beta_hat = (fun j => (Xᵀ * Y) j 0)
    ∧ Xᵀ.mulVec (getFit Y X X).u_hat = 0
    ∧ (getFit Y X X).scores = Matrix.of (fun i j => X i j * (getFit Y X X).u_hat i)
    ∧ (getFit Y X X).hessian = Xᵀ * X := by
  have hu : IsUnit (Xᵀ * X).det := isUnit_iff_ne_zero.mpr hdet
  have hcancel : (Xᵀ * X) * ((Xᵀ * X)⁻¹ * (Xᵀ * Y)) = Xᵀ * Y := by
    rw [← Matrix.mul_assoc, Matrix.mul_nonsing_inv _ hu, Matrix.one_mul]
  have h1 : (Xᵀ * X).mulVec (getFit Y X X).beta_hat = fun j => (Xᵀ * Y) j 0 := by
    funext j
    have hrow : ((Xᵀ * X) * ((Xᵀ * X)⁻¹ * (Xᵀ * Y))) j 0 = (Xᵀ * Y) j 0 := by
      rw [hcancel]
    calc (Xᵀ * X).mulVec (getFit Y X X).beta_hat j
        = ((Xᵀ * X) * ((Xᵀ * X)⁻¹ * (Xᵀ * Y))) j 0 := by
          simp [getFit, Matrix.mulVec, Matrix.mul_apply, dotProduct]
      _ = (Xᵀ * Y) j 0 := hrow
  refine ⟨h1, ?_, rfl, rfl⟩
  have hsplit : (getFit Y X X).u_hat
      = (fun i => Y i 0) - X.mulVec (getFit Y X X).beta_hat := rfl
  rw [hsplit, Matrix.mulVec_sub, Matrix.mulVec_mulVec, h1]
  funext j
  simp [Matrix.mulVec, dotProduct, Matrix.mul_apply]

/-- Witness for `getFit_solves_normal_equations` at `Y = [1, 2]`,
`X = [[1], [2]]`, where `X'X = [[5]]` is invertible. -/
theorem getFit_solves_normal_equations_witness :
    (Xwᵀ * Xw).det ≠ 0
    ∧ ((Xwᵀ * Xw).mulVec (getFit Yw Xw Xw).beta_hat = (fun j => (Xwᵀ * Yw) j 0)
      ∧ Xwᵀ.mulVec (getFit Yw Xw Xw).u_hat = 0
      ∧ (getFit Yw Xw Xw).scores
          = Matrix.of (fun i j => Xw i j * (getFit Yw Xw Xw).u_hat i)
      ∧ (getFit Yw Xw Xw).hessian = Xwᵀ * Xw) := by
  have hdet : (Xwᵀ * Xw).det ≠ 0 := by
    simp [Xw, Matrix.det_fin_one, Matrix.mul_apply, Fin.sum_univ_two,
      Matrix.transpose_apply, Matrix.vecHead, Matrix.vecTail]
    norm_num
  exact ⟨hdet, getFit_solves_normal_equations Yw Xw hdet⟩

/-! ### Helper evaluation lemmas for the concrete instances -/

theorem inv_one_by_one (a : ℝ) : (!![a] : Mat 1 1)⁻¹ = !![a⁻¹] := by
  rw [Matrix.inv_def, Matrix.adjugate_fin_one, Matrix.det_fin_one]
  ext i j
  fin_cases i; fin_cases j
  simp [Ring.inverse_eq_inv]

theorem tXX41 : X41ᵀ * X41 = !![(4 : ℝ)] := by
  ext i j; fin_cases i; fin_cases j
  simp [X41, Matrix.mul_apply, Fin.sum_univ_four, Matrix.transpose_apply,
    Matrix.vecHead, Matrix.vecTail]
  norm_num

theorem tXy41 : X41ᵀ * Y41 = !![(6 : ℝ)] := by
  ext i j; fin_cases i; fin_cases j
  simp [X41, Y41, Matrix.mul_apply, Fin.sum_univ_four, Matrix.transpose_apply,
    Matrix.vecHead, Matrix.vecTail]
  norm_num

theorem betaA : stA.beta_hat = fun _ => (3 : ℝ) / 2 := by
  funext j
  have h : stA.beta_hat j = ((X41ᵀ * X41)⁻¹ * (X41ᵀ * Y41)) j 0 := rfl
  rw [h, tXX41, tXy41, inv_one_by_one]
  fin_cases j
  simp [Matrix.mul_apply]
  norm_num

theorem uA : stA.u_hat = ![-(3 : ℝ) / 2, -1 / 2, 1 / 2, 3 / 2] := by
  funext i
  have h : stA.u_hat i = Y41 i 0 - X41.mulVec stA.beta_hat i := rfl
  rw [h, betaA]
  fin_cases i <;>
    simp [X41, Y41, Matrix.mulVec, dotProduct, Fin.sum_univ_one, Matrix.vecHead,
      Matrix.vecTail] <;> norm_num

theorem hessA : stA.hessian = !![(4 : ℝ)] := by
  have h : stA.hessian = X41ᵀ * X41 := rfl
  rw [h, tXX41]

theorem labelsA_eq : clusterLabels ((dataOf4 labA).col "cl") = labA := by
  funext i
  simp [clusterLabels, dataOf4]

theorem labelsB_eq : clusterLabels ((dataOf4 labB).col "cl") = labB := by
  funext i
  simp [clusterLabels, dataOf4]

theorem clustidA : clustidOf ((dataOf4 labA).col "cl") = [0, 1] := by
  have himg : Finset.image (clusterLabels ((dataOf4 labA).col "cl")) Finset.univ
      = ({0, 1} : Finset ℕ) := by decide
  rw [clustidOf, himg]
  rw [Finset.sort_insert (· ≤ ·) (by decide) (by decide), Finset.sort_singleton]

theorem clustidB : clustidOf ((dataOf4 labB).col "cl") = [5, 7] := by
  have himg : Finset.image (clusterLabels ((dataOf4 labB).col "cl")) Finset.univ
      = ({5, 7} : Finset ℕ) := by decide
  rw [clustidOf, himg]
  rw [Finset.sort_insert (· ≤ ·) (by decide) (by decide), Finset.sort_singleton]

theorem tXX21 : X21ᵀ * X21 = !![(1 : ℝ)] := by
  ext i j; fin_cases i; fin_cases j
  simp [X21, Matrix.mul_apply, Fin.sum_univ_two]

theorem stHC_tZXinv : stHC.tZXinv = !![(1 : ℝ)] := by
  have h : stHC.tZXinv = (X21ᵀ * X21)⁻¹ := rfl
  rw [h, tXX21, inv_one_by_one, inv_one]

theorem stHC_leverage : leverageF stHC.X stHC.tZXinv 0 = 1 := by
  have hX : stHC.X = X21 := rfl
  simp only [leverageF, hX, stHC_tZXinv]
  simp [X21, Matrix.mul_apply, Fin.sum_univ_one]

/-! ### C5 -/

/-- C5 counterexample: for the design `X = [[1], [0]]` the first observation's
leverage is exactly 1, yet the HC2 (and HC3) request is not rejected — the
`get_vcov` call returns normally, so the claimed leverage ≥ 1 rejection does not
exist in the code (the division is performed regardless). -/
theorem hc2_leverage_one_not_rejected :
    leverageF stHC.X stHC.tZXinv 0 = 1
    ∧ (getVcovF sscOne refitZero stHC (.str "HC2")).2 = .ok ()
    ∧ (getVcovF sscOne refitZero stHC (.str "HC3")).2 = .ok () :=
  ⟨stHC_leverage, rfl, rfl⟩

/-- C5 (amended): for every non-IV, non-fixed-effects model, HC2 rescales the
residuals and the scores by `1/√(1−h_i)` and HC3 rescales the scores by
`1/(1−h_i)` with `h_i` the per-observation leverage; but a leverage `h_i ≥ 1` is
never rejected — the request returns normally for every design, with no check on
the leverage values. -/
theorem hc2_hc3_rescale_no_leverage_guard {N k : ℕ}
    (gssc : ℕ → ℕ → ℕ → String → ℝ) (refit : ℕ → Fin k → ℝ) (st : FeolsSt N k)
    (hiv : st.is_iv = false) (hfe : st.has_fixef = false) :
    (∀ lev i j, hc2Scores st.scores lev i j = st.scores i j / Real.sqrt (1 - lev i))
    ∧ (∀ lev i j, hc3Scores st.scores lev i j = st.scores i j / (1 - lev i))
    ∧ (∀ lev i, hc2Resid st.u_hat lev i = st.u_hat i / Real.sqrt (1 - lev i))
    ∧ (getVcovF gssc refit st (.str "HC2")).2 = .ok ()
    ∧ (getVcovF gssc refit st (.str "HC2")).1.vcov
        = some (gssc N k 1 "hetero" •
            (st.hessian⁻¹ *
              ((hc2Scores st.scores (leverageF st.X st.tZXinv))ᵀ *
                hc2Scores st.scores (leverageF st.X st.tZXinv)) * st.hessian⁻¹))
    ∧ (getVcovF gssc refit st (.str "HC3")).2 = .ok ()
    ∧ (getVcovF gssc refit st (.str "HC3")).1.vcov
        = some (gssc N k 1 "hetero" •
            (st.hessian⁻¹ *
              ((hc3Scores st.scores (leverageF st.X st.tZXinv))ᵀ *
                hc3Scores st.scores (leverageF st.X st.tZXinv)) * st.hessian⁻¹)) := by
  obtain ⟨Y, X, Z, w, data, hf, iv, meth, si, sc3, bh, uh, scs, hes, tzx, tzxi, txz,
    tzzi, vt0, vtd0, icl0, cvr0, G0, ssc0, vcv0⟩ := st
  have hiv2 : iv = false := hiv
  have hfe2 : hf = false := hfe
  subst hiv2; subst hfe2
  exact ⟨fun _ _ _ => rfl, fun _ _ _ => rfl, fun _ _ => rfl, rfl, rfl, rfl, rfl⟩

/-- Witness for `hc2_hc3_rescale_no_leverage_guard` at the concrete fitted state
`stHC`. -/
theorem hc2_hc3_rescale_no_leverage_guard_witness :
    stHC.is_iv = false ∧ stHC.has_fixef = false
    ∧ (getVcovF sscOne refitZero stHC (.str "HC2")).2 = .ok () :=
  ⟨rfl, rfl,
    (hc2_hc3_rescale_no_leverage_guard sscOne refitZero stHC rfl rfl).2.2.2.1⟩

/-! ### C7 -/

theorem crv1MeatA1 :
    crv1Meat X41 (fun i => 1 * stA.u_hat i) labA [0, 1] = !![(8 : ℝ)] := by
  simp only [uA]
  ext a b; fin_cases a; fin_cases b
  simp [crv1Meat, Matrix.vecMulVec_apply, Finset.sum_filter, Fin.sum_univ_four,
    labA, X41, Matrix.vecHead, Matrix.vecTail]
  norm_num

theorem crv1MeatA2 :
    crv1Meat X41 (fun i => 2 * stA.u_hat i) labA [0, 1] = !![(32 : ℝ)] := by
  simp only [uA]
  ext a b; fin_cases a; fin_cases b
  simp [crv1Meat, Matrix.vecMulVec_apply, Finset.sum_filter, Fin.sum_univ_four,
    labA, X41, Matrix.vecHead, Matrix.vecTail]
  norm_num

theorem crv1A_eval :
    (getVcovF sscOne refitZero stA (.dict "CRV1" "cl")).1.vcov
      = some !![(1 : ℝ) / 2] := by
  have h1 : (getVcovF sscOne refitZero stA (.dict "CRV1" "cl")).1.vcov
      = some ((1 : ℝ) • (stA.hessian⁻¹ *
          crv1Meat stA.Z (fun i => 1 * stA.u_hat i)
            (clusterLabels ((dataOf4 labA).col "cl"))
            (clustidOf ((dataOf4 labA).col "cl"))
          * stA.hessian⁻¹)) := rfl
  have hZ : stA.Z = X41 := rfl
  rw [h1, labelsA_eq, clustidA, hZ, crv1MeatA1, hessA, inv_one_by_one]
  congr 1
  ext a b; fin_cases a; fin_cases b
  simp [Matrix.mul_apply]
  norm_num

theorem crv1W2_eval :
    (getVcovF sscOne refitZero stW2 (.dict "CRV1" "cl")).1.vcov
      = some !![(2 : ℝ)] := by
  have h1 : (getVcovF sscOne refitZero stW2 (.dict "CRV1" "cl")).1.vcov
      = some ((1 : ℝ) • (stA.hessian⁻¹ *
          crv1Meat stA.Z (fun i => 2 * stA.u_hat i)
            (clusterLabels ((dataOf4 labA).col "cl"))
            (clustidOf ((dataOf4 labA).col "cl"))
          * stA.hessian⁻¹)) := rfl
  have hZ : stA.Z = X41 := rfl
  rw [h1, labelsA_eq, clustidA, hZ, crv1MeatA2, hessA, inv_one_by_one]
  congr 1
  ext a b; fin_cases a; fin_cases b
  simp [Matrix.mul_apply]
  norm_num

/-- C7 counterexample: two fitted models identical except for their weights
(all ones in `stA`, all twos in `stW2`) produce different CRV1 covariance
matrices (`[[1/2]]` vs `[[2]]`): the CRV1 branch multiplies the residuals by the
weights, so the weights are not unused in the core math. -/
theorem crv1_weights_change_vcov_counterexample :
    (getVcovF sscOne refitZero stA (.dict "CRV1" "cl")).1.vcov = some !![(1 : ℝ) / 2]
    ∧ (getVcovF sscOne refitZero stW2 (.dict "CRV1" "cl")).1.vcov = some !![(2 : ℝ)]
    ∧ (getVcovF sscOne refitZero stA (.dict "CRV1" "cl")).1.vcov
        ≠ (getVcovF sscOne refitZero stW2 (.dict "CRV1" "cl")).1.vcov := by
  refine ⟨crv1A_eval, crv1W2_eval, ?_⟩
  rw [crv1A_eval, crv1W2_eval]
  intro h
  have h2 := congrFun (congrFun (Option.some.inj h) 0) 0
  simp at h2
  norm_num at h2

/-- C7 (amended): the `weights` input is validated to be 2-dimensional (and
nothing else: the row count is not compared with `Y`/`X`); the point estimates
and residuals do not depend on it, nor does any `get_vcov` result for iid,
hetero/HC1/HC2/HC3 or CRV3 requests (or list requests); only the CRV1 branch
reads the weights (it multiplies the residuals by them, see the
counterexample). -/
theorem weights_validated_but_unused_outside_crv1 :
    (∀ y x w : ℕ, feolsInputChecks y x w = .ok () ↔ y = 2 ∧ x = 2 ∧ w = 2)
    ∧ (∀ (N k : ℕ) (Y : Mat N 1) (X Z : Mat N k)
        (w w2 : Option (Fin N → ℝ)) (data : Option (DataD N)) (hf iv : Bool)
        (txz tzzi : Mat k k),
        (mkFeolsSt Y X Z w data hf iv txz tzzi).beta_hat
          = (mkFeolsSt Y X Z w2 data hf iv txz tzzi).beta_hat
        ∧ (mkFeolsSt Y X Z w data hf iv txz tzzi).u_hat
          = (mkFeolsSt Y X Z w2 data hf iv txz tzzi).u_hat)
    ∧ (∀ (N k : ℕ) (gssc : ℕ → ℕ → ℕ → String → ℝ) (refit : ℕ → Fin k → ℝ)
        (st : FeolsSt N k) (w2 : Option (Fin N → ℝ)) (arg : VcovArg),
        WeightsFreeArg arg →
        (getVcovF gssc refit { st with weights := w2 } arg).1.vcov
          = (getVcovF gssc refit st arg).1.vcov
        ∧ (getVcovF gssc refit { st with weights := w2 } arg).2
          = (getVcovF gssc refit st arg).2) := by
  refine ⟨?_, ?_, ?_⟩
  · intro y x w
    by_cases hy : y = 2 <;> by_cases hx : x = 2 <;> by_cases hw : w = 2 <;>
      simp [feolsInputChecks, hy, hx, hw]
  · intro N k Y X Z w w2 data hf iv txz tzzi
    exact ⟨rfl, rfl⟩
  · intro N k gssc refit st w2 arg hws
    obtain ⟨Y, X, Z, w, data, hf, iv, meth, si, sc3, bh, uh, scs, hes, tzx, tzxi,
      txz, tzzi, vt0, vtd0, icl0, cvr0, G0, ssc0, vcv0⟩ := st
    rcases hws with ⟨s, rfl⟩ | ⟨c, rfl⟩ | ⟨l, rfl⟩
    · by_cases h1 : s = "iid"
      · subst h1; cases si <;> cases iv <;> exact ⟨rfl, rfl⟩
      · by_cases h2 : s = "hetero"
        · subst h2; cases iv <;> exact ⟨rfl, rfl⟩
        · by_cases h3 : s = "HC1"
          · subst h3; cases iv <;> exact ⟨rfl, rfl⟩
          · by_cases h4 : s = "HC2"
            · subst h4; cases hf <;> cases iv <;> exact ⟨rfl, rfl⟩
            · by_cases h5 : s = "HC3"
              · subst h5; cases hf <;> cases iv <;> exact ⟨rfl, rfl⟩
              · have hchk : ∀ dd : Option (DataD N),
                    checkVcovInput (VcovArg.str s) dd = .error .assertionError := by
                  intro dd
                  simp [checkVcovInput, h1, h2, h3, h4, h5]
                constructor <;> simp [getVcovF, hchk]
    · cases data with
      | none => exact ⟨rfl, rfl⟩
      | some d =>
        by_cases hc : c ∈ d.cols
        · have hchk : checkVcovInput (VcovArg.dict "CRV3" c) (some d) = .ok () := by
            simp [checkVcovInput, hc]
          by_cases hmiss : ∃ i, d.col c i = none
          · constructor <;>
              simp [getVcovF, hchk, deparseVcovInput, hmiss]
          · cases iv <;> cases sc3 <;> cases hf <;>
              (constructor <;> simp [getVcovF, hchk, deparseVcovInput, hmiss])
        · have hchk : checkVcovInput (VcovArg.dict "CRV3" c) (some d)
              = .error .assertionError := by
            simp [checkVcovInput, hc]
          constructor <;> simp [getVcovF, hchk]
    · cases data with
      | none =>
        by_cases hl : l = []
        · subst hl; exact ⟨rfl, rfl⟩
        · constructor <;> simp [getVcovF, checkVcovInput, hl]
      | some d =>
        by_cases hall : ∀ v ∈ l, v ∈ d.cols
        · have hchk : checkVcovInput (VcovArg.list l) (some d) = .ok () := by
            simp only [checkVcovInput]
            rw [if_pos hall]
          constructor <;> simp [getVcovF, hchk, deparseVcovInput]
        · have hchk : checkVcovInput (VcovArg.list l) (some d)
              = .error .assertionError := by
            simp only [checkVcovInput]
            rw [if_neg hall]
          constructor <;> simp [getVcovF, hchk]

/-- Witness for `weights_validated_but_unused_outside_crv1`: the iid covariance
of `stA` is unchanged when the weights are replaced by all twos. -/
theorem weights_validated_but_unused_outside_crv1_witness :
    WeightsFreeArg (VcovArg.str "iid")
    ∧ (getVcovF sscOne refitZero { stA with weights := some fun _ => 2 }
        (VcovArg.str "iid")).1.vcov
      = (getVcovF sscOne refitZero stA (VcovArg.str "iid")).1.vcov :=
  ⟨Or.inl ⟨"iid", rfl⟩,
    (weights_validated_but_unused_outside_crv1.2.2 4 1 sscOne refitZero stA
      (some fun _ => 2) (VcovArg.str "iid") (Or.inl ⟨"iid", rfl⟩)).1⟩

/-! ### C10 -/

theorem getVcov_vcov_none_or_ok {N k : ℕ} (gssc : ℕ → ℕ → ℕ → String → ℝ)
    (refit : ℕ → Fin k → ℝ) (st : FeolsSt N k) (arg : VcovArg) :
    (getVcovF gssc refit st arg).1.vcov = none
    ∨ (getVcovF gssc refit st arg).2 = .ok () := by
  obtain ⟨Y, X, Z, w, data, hf, iv, meth, si, sc3, bh, uh, scs, hes, tzx, tzxi,
    txz, tzzi, vt0, vtd0, icl0, cvr0, G0, ssc0, vcv0⟩ := st
  rcases arg with s | ⟨key, val⟩ | l
  · by_cases h1 : s = "iid"
    · subst h1
      cases si <;> cases iv <;> first | exact Or.inl rfl | exact Or.inr rfl
    · by_cases h2 : s = "hetero"
      · subst h2
        cases iv <;> first | exact Or.inl rfl | exact Or.inr rfl
      · by_cases h3 : s = "HC1"
        · subst h3
          cases iv <;> first | exact Or.inl rfl | exact Or.inr rfl
        · by_cases h4 : s = "HC2"
          · subst h4
            cases hf <;> cases iv <;> first | exact Or.inl rfl | exact Or.inr rfl
          · by_cases h5 : s = "HC3"
            · subst h5
              cases hf <;> cases iv <;> first | exact Or.inl rfl | exact Or.inr rfl
            · have hchk : ∀ dd : Option (DataD N),
                  checkVcovInput (VcovArg.str s) dd = .error .assertionError := by
                intro dd
                simp [checkVcovInput, h1, h2, h3, h4, h5]
              left
              simp [getVcovF, hchk]
  · by_cases hk1 : key = "CRV1"
    · subst hk1
      cases data with
      | none => exact Or.inl rfl
      | some d =>
        by_cases hval : val ∈ d.cols
        · have hchk : checkVcovInput (VcovArg.dict "CRV1" val) (some d) = .ok () := by
            simp [checkVcovInput, hval]
          by_cases hmiss : ∃ i, d.col val i = none
          · left
            simp [getVcovF, hchk, deparseVcovInput, hmiss]
          · right
            cases iv <;> simp [getVcovF, hchk, deparseVcovInput, hmiss]
        · have hchk : checkVcovInput (VcovArg.dict "CRV1" val) (some d)
              = .error .assertionError := by
            simp [checkVcovInput, hval]
          left
          simp [getVcovF, hchk]
    · by_cases hk3 : key = "CRV3"
      · subst hk3
        cases data with
        | none => exact Or.inl rfl
        | some d =>
          by_cases hval : val ∈ d.cols
          · have hchk : checkVcovInput (VcovArg.dict "CRV3" val) (some d) = .ok () := by
              simp [checkVcovInput, hval]
            by_cases hmiss : ∃ i, d.col val i = none
            · left
              simp [getVcovF, hchk, deparseVcovInput, hmiss]
            · cases iv <;> cases sc3 <;> cases hf <;>
                simp [getVcovF, hchk, deparseVcovInput, hmiss]
          · have hchk : checkVcovInput (VcovArg.dict "CRV3" val) (some d)
                = .error .assertionError := by
              simp [checkVcovInput, hval]
            left
            simp [getVcovF, hchk]
      · have hchk : ∀ dd : Option (DataD N),
            checkVcovInput (VcovArg.dict key val) dd = .error .assertionError := by
          intro dd
          cases dd <;> simp [checkVcovInput, hk1, hk3]
        left
        simp [getVcovF, hchk]
  · cases data with
    | none =>
      by_cases hl : l = []
      · subst hl
        exact Or.inl rfl
      · left
        simp [getVcovF, checkVcovInput, hl]
    | some d =>
      by_cases hall : ∀ v ∈ l, v ∈ d.cols
      · have hchk : checkVcovInput (VcovArg.list l) (some d) = .ok () := by
          simp only [checkVcovInput]
          rw [if_pos hall]
        left
        simp [getVcovF, hchk, deparseVcovInput]
      · have hchk : checkVcovInput (VcovArg.list l) (some d)
            = .error .assertionError := by
          simp only [checkVcovInput]
          rw [if_neg hall]
        left
        simp [getVcovF, hchk]

/-- C10: `get_vcov` nulls its result attributes at entry, before validating the
request; consequently every call that raises leaves `self.vcov = None` behind
(any previously stored covariance is erased), and a call failing input
validation leaves the whole result-attribute block reset. -/
theorem get_vcov_error_leaves_vcov_none {N k : ℕ} (gssc : ℕ → ℕ → ℕ → String → ℝ)
    (refit : ℕ → Fin k → ℝ) (st : FeolsSt N k) (arg : VcovArg) :
    (∀ e, (getVcovF gssc refit st arg).2 = .error e →
      (getVcovF gssc refit st arg).1.vcov = none)
    ∧ (∀ e, checkVcovInput arg st.data = .error e →
      (getVcovF gssc refit st arg).1 = resetVcovFields st) := by
  constructor
  · intro e he
    rcases getVcov_vcov_none_or_ok gssc refit st arg with h | h
    · exact h
    · rw [h] at he
      exact Except.noConfusion he
  · intro e he
    simp [getVcovF, he, resetVcovFields]

/-- Witness for `get_vcov_error_leaves_vcov_none`: `stPrev` stores the
covariance `[[99]]`, the invalid request `"HC4"` fails the input assertion, and
after the failed call the stored covariance is gone. -/
theorem get_vcov_error_leaves_vcov_none_witness :
    stPrev.vcov = some !![(99 : ℝ)]
    ∧ (getVcovF sscOne refitZero stPrev (VcovArg.str "HC4")).2
        = .error .assertionError
    ∧ (getVcovF sscOne refitZero stPrev (VcovArg.str "HC4")).1.vcov = none :=
  ⟨rfl, rfl,
    (get_vcov_error_leaves_vcov_none sscOne refitZero stPrev
      (VcovArg.str "HC4")).1 .assertionError rfl⟩

/-! ### C3 -/

/-- C3: requesting HC2 or HC3 on an IV or fixed-effects model, or CRV3 on an IV
model (whose cluster column exists and is free of missing values — a missing
value raises `NanInClusterVarError` first), raises the distinct
`VcovTypeNotSupportedError`, and no covariance matrix is stored in its place. -/
theorem unsupported_vcov_combinations_raise {N k : ℕ}
    (gssc : ℕ → ℕ → ℕ → String → ℝ) (refit : ℕ → Fin k → ℝ) (st : FeolsSt N k)
    (arg : VcovArg) (h : BadCombo st arg) :
    (getVcovF gssc refit st arg).2 = .error .vcovTypeNotSupportedError
    ∧ (getVcovF gssc refit st arg).1.vcov = none := by
  obtain ⟨Y, X, Z, w, data, hf, iv, meth, si, sc3, bh, uh, scs, hes, tzx, tzxi,
    txz, tzzi, vt0, vtd0, icl0, cvr0, G0, ssc0, vcv0⟩ := st
  rcases h with ⟨hs, hflag⟩ | ⟨c, d, harg, hiv, hdata, hcol, hnomiss⟩
  · rcases hs with rfl | rfl
    · rcases hflag with h2 | h2
      · have h3 : iv = true := h2
        subst h3; cases hf <;> exact ⟨rfl, rfl⟩
      · have h3 : hf = true := h2
        subst h3; cases iv <;> exact ⟨rfl, rfl⟩
    · rcases hflag with h2 | h2
      · have h3 : iv = true := h2
        subst h3; cases hf <;> exact ⟨rfl, rfl⟩
      · have h3 : hf = true := h2
        subst h3; cases iv <;> exact ⟨rfl, rfl⟩
  · subst harg
    have h3 : iv = true := hiv
    subst h3
    have h4 : data = some d := hdata
    subst h4
    have hchk : checkVcovInput (VcovArg.dict "CRV3" c) (some d) = .ok () := by
      simp [checkVcovInput, hcol]
    have hne : ¬ ∃ i, d.col c i = none := by
      rintro ⟨i, hi⟩
      exact hnomiss i hi
    constructor <;> simp [getVcovF, hchk, deparseVcovInput, hne]

/-- Witness for `unsupported_vcov_combinations_raise`: HC2 on the
fixed-effects-flagged state `stFE`. -/
theorem unsupported_vcov_combinations_raise_witness :
    BadCombo stFE (VcovArg.str "HC2")
    ∧ (getVcovF sscOne refitZero stFE (VcovArg.str "HC2")).2
        = .error .vcovTypeNotSupportedError :=
  ⟨Or.inl ⟨Or.inl rfl, Or.inr rfl⟩,
    (unsupported_vcov_combinations_raise sscOne refitZero stFE
      (VcovArg.str "HC2") (Or.inl ⟨Or.inl rfl, Or.inr rfl⟩)).1⟩

/-! ### C9 -/

/-- C9: a list-valued vcov request whose entries are all data columns passes
`_check_vcov_input`, but `get_vcov` then fails with an unbound-local-variable
error inside `_deparse_vcov_input` (the if-chain assigns neither `vcov_type` nor
`is_clustered` for a list, and `if is_clustered:` reads the unbound local), so a
multi-way clustering request can never produce a covariance result. -/
theorem list_vcov_unbound_local {N k : ℕ} (gssc : ℕ → ℕ → ℕ → String → ℝ)
    (refit : ℕ → Fin k → ℝ) (st : FeolsSt N k) (cols : List String) (d : DataD N)
    (hdata : st.data = some d) (hcols : ∀ c ∈ cols, c ∈ d.cols) :
    checkVcovInput (VcovArg.list cols) st.data = .ok ()
    ∧ (getVcovF gssc refit st (VcovArg.list cols)).2 = .error .unboundLocalError
    ∧ (getVcovF gssc refit st (VcovArg.list cols)).1.vcov = none := by
  obtain ⟨Y, X, Z, w, data, hf, iv, meth, si, sc3, bh, uh, scs, hes, tzx, tzxi,
    txz, tzzi, vt0, vtd0, icl0, cvr0, G0, ssc0, vcv0⟩ := st
  have h4 : data = some d := hdata
  subst h4
  have hchk : checkVcovInput (VcovArg.list cols) (some d) = .ok () := by
    simp only [checkVcovInput]
    rw [if_pos hcols]
  refine ⟨hchk, ?_, ?_⟩ <;> simp [getVcovF, hchk, deparseVcovInput]

/-- Witness for `list_vcov_unbound_local`: the single-column list `["cl"]` on
`stA`. -/
theorem list_vcov_unbound_local_witness :
    stA.data = some (dataOf4 labA)
    ∧ (∀ c ∈ ["cl"], c ∈ (dataOf4 labA).cols)
    ∧ (getVcovF sscOne refitZero stA (VcovArg.list ["cl"])).2
        = .error .unboundLocalError :=
  ⟨rfl, by decide,
    (list_vcov_unbound_local sscOne refitZero stA ["cl"] (dataOf4 labA) rfl
      (by decide)).2.1⟩

/-! ### C2 and C6: CRV3 evaluation lemmas -/

theorem crv3LooBeta_empty_mask (labels : Fin 4 → ℕ) (v : ℕ)
    (hmask : (Finset.univ.filter fun i : Fin 4 => labels i = v) = ∅) :
    crv3LooBeta X41 Y41 labels v = fun _ => (3 : ℝ) / 2 := by
  have hXX : crv3MaskXX X41 labels v = (0 : Mat 1 1) := by
    ext a b
    simp [crv3MaskXX, hmask]
  have hXy : crv3MaskXy X41 Y41 labels v = fun _ => (0 : ℝ) := by
    funext l
    simp [crv3MaskXy, hmask]
  funext j
  simp only [crv3LooBeta, hXX, hXy, sub_zero, tXX41, tXy41, inv_one_by_one]
  fin_cases j
  simp [Matrix.mul_apply, Fin.sum_univ_one]
  norm_num

theorem crv3LooBeta_mask01 (labels : Fin 4 → ℕ) (v : ℕ)
    (hmask : (Finset.univ.filter fun i : Fin 4 => labels i = v) = {0, 1}) :
    crv3LooBeta X41 Y41 labels v = fun _ => (5 : ℝ) / 2 := by
  have hXX : crv3MaskXX X41 labels v = !![(2 : ℝ)] := by
    ext a b; fin_cases a; fin_cases b
    simp [crv3MaskXX, hmask, X41, Finset.sum_pair (show (0 : Fin 4) ≠ 1 by decide),
      Matrix.vecHead, Matrix.vecTail]
    norm_num
  have hXy : crv3MaskXy X41 Y41 labels v = fun _ => (1 : ℝ) := by
    funext l; fin_cases l
    simp [crv3MaskXy, hmask, X41, Y41, Finset.sum_pair (show (0 : Fin 4) ≠ 1 by decide),
      Matrix.vecHead, Matrix.vecTail]
  funext j
  simp only [crv3LooBeta, hXX, hXy, tXX41, tXy41]
  rw [show (!![(4 : ℝ)] - !![(2 : ℝ)]) = !![(2 : ℝ)] from by
    ext a b; fin_cases a; fin_cases b; simp; norm_num]
  rw [inv_one_by_one]
  fin_cases j
  simp [Matrix.mul_apply, Fin.sum_univ_one]
  norm_num

theorem crv3LooBeta_mask23 (labels : Fin 4 → ℕ) (v : ℕ)
    (hmask : (Finset.univ.filter fun i : Fin 4 => labels i = v) = {2, 3}) :
    crv3LooBeta X41 Y41 labels v = fun _ => (1 : ℝ) / 2 := by
  have hXX : crv3MaskXX X41 labels v = !![(2 : ℝ)] := by
    ext a b; fin_cases a; fin_cases b
    simp [crv3MaskXX, hmask, X41, Finset.sum_pair (show (2 : Fin 4) ≠ 3 by decide),
      Matrix.vecHead, Matrix.vecTail]
    norm_num
  have hXy : crv3MaskXy X41 Y41 labels v = fun _ => (5 : ℝ) := by
    funext l; fin_cases l
    simp [crv3MaskXy, hmask, X41, Y41, Finset.sum_pair (show (2 : Fin 4) ≠ 3 by decide),
      Matrix.vecHead, Matrix.vecTail]
    norm_num
  funext j
  simp only [crv3LooBeta, hXX, hXy, tXX41, tXy41]
  rw [show (!![(4 : ℝ)] - !![(2 : ℝ)]) = !![(2 : ℝ)] from by
    ext a b; fin_cases a; fin_cases b; simp; norm_num]
  rw [inv_one_by_one]
  fin_cases j
  simp [Matrix.mul_apply, Fin.sum_univ_one]
  norm_num

theorem crv3B_eval : (getVcovF sscOne refitZero stB (.dict "CRV3" "cl")).1.vcov
    = some !![(0 : ℝ)] := by
  have h1 : (getVcovF sscOne refitZero stB (.dict "CRV3" "cl")).1.vcov
      = some (crv3VcovF 1
          (fun ixg => crv3LooBeta X41 Y41 (clusterLabels ((dataOf4 labB).col "cl")) ixg)
          stB.beta_hat (clustidOf ((dataOf4 labB).col "cl")).length) := rfl
  have hbeta : stB.beta_hat = fun _ => (3 : ℝ) / 2 := betaA
  rw [h1, hbeta]
  simp only [labelsB_eq, clustidB, List.length_cons, List.length_nil]
  have hl0 : crv3LooBeta X41 Y41 labB 0 = fun _ => (3 : ℝ) / 2 :=
    crv3LooBeta_empty_mask labB 0 (by decide)
  have hl1 : crv3LooBeta X41 Y41 labB 1 = fun _ => (3 : ℝ) / 2 :=
    crv3LooBeta_empty_mask labB 1 (by decide)
  simp only [crv3VcovF, Finset.sum_range_succ, Finset.sum_range_zero, hl0, hl1, zero_add]
  refine congrArg some ?_
  ext a b; fin_cases a; fin_cases b
  simp [Matrix.vecMulVec_apply]

theorem crv3A_eval : (getVcovF sscOne refitZero stA (.dict "CRV3" "cl")).1.vcov
    = some !![(2 : ℝ)] := by
  have h1 : (getVcovF sscOne refitZero stA (.dict "CRV3" "cl")).1.vcov
      = some (crv3VcovF 1
          (fun ixg => crv3LooBeta X41 Y41 (clusterLabels ((dataOf4 labA).col "cl")) ixg)
          stA.beta_hat (clustidOf ((dataOf4 labA).col "cl")).length) := rfl
  rw [h1, betaA]
  simp only [labelsA_eq, clustidA, List.length_cons, List.length_nil]
  have hl0 : crv3LooBeta X41 Y41 labA 0 = fun _ => (5 : ℝ) / 2 :=
    crv3LooBeta_mask01 labA 0 (by decide)
  have hl1 : crv3LooBeta X41 Y41 labA 1 = fun _ => (1 : ℝ) / 2 :=
    crv3LooBeta_mask23 labA 1 (by decide)
  simp only [crv3VcovF, Finset.sum_range_succ, Finset.sum_range_zero, hl0, hl1, zero_add]
  refine congrArg some ?_
  ext a b; fin_cases a; fin_cases b
  simp [Matrix.vecMulVec_apply]
  norm_num

theorem crv3SpecB_eval :
    crv3SpecVcov 1 X41 Y41 labB [5, 7] (fun _ => (3 : ℝ) / 2) = !![(2 : ℝ)] := by
  have hl5 : crv3LooBeta X41 Y41 labB 5 = fun _ => (5 : ℝ) / 2 :=
    crv3LooBeta_mask01 labB 5 (by decide)
  have hl7 : crv3LooBeta X41 Y41 labB 7 = fun _ => (1 : ℝ) / 2 :=
    crv3LooBeta_mask23 labB 7 (by decide)
  simp only [crv3SpecVcov, List.map_cons, List.map_nil, List.sum_cons, List.sum_nil,
    hl5, hl7, add_zero]
  ext a b; fin_cases a; fin_cases b
  simp [Matrix.vecMulVec_apply]
  norm_num

/-- C2 (code bug): on the state `stB` (clusters labelled 5 and 7, sorted clustid
`[5, 7]`, `G = 2`), the CRV3 loop masks rows by comparing the **enumeration
index** (`0`, then `1`) against the cluster column — `np.equal(ixg, group)`
instead of `np.equal(g, group)` — so no rows match, every jackknife coefficient
equals the full-sample `β = 3/2`, and the returned covariance is the zero
matrix; the leave-one-cluster-out jackknife described by the spec (masking by
the actual labels, `crv3SpecVcov`) gives `[[2]]`. -/
theorem crv3_mask_uses_enumeration_index_code_bug :
    (getVcovF sscOne refitZero stB (.dict "CRV3" "cl")).1.vcov = some !![(0 : ℝ)]
    ∧ crv3LooBeta X41 Y41 labB 0 = stB.beta_hat
    ∧ crv3LooBeta X41 Y41 labB 1 = stB.beta_hat
    ∧ crv3SpecVcov 1 X41 Y41 labB [5, 7] stB.beta_hat = !![(2 : ℝ)]
    ∧ (¬ (!![(0 : ℝ)] : Mat 1 1) = !![(2 : ℝ)]) := by
  have hbeta : stB.beta_hat = fun _ => (3 : ℝ) / 2 := betaA
  refine ⟨crv3B_eval, ?_, ?_, ?_, ?_⟩
  · rw [hbeta]
    exact crv3LooBeta_empty_mask labB 0 (by decide)
  · rw [hbeta]
    exact crv3LooBeta_empty_mask labB 1 (by decide)
  · rw [hbeta]
    exact crv3SpecB_eval
  · intro h
    have h2 := congrFun (congrFun h 0) 0
    simp at h2
  

/-- C6 (code bug): relabelling the clusters of `stA` (labels `[0,0,1,1]`) to
`stB` (labels `[5,5,7,7]`) preserves the partition of the observations but
changes the CRV3 covariance from `[[2]]` to the zero matrix: because the CRV3
masks compare the enumeration index with the labels, the result depends on the
cluster labels themselves, not only on the induced partition. -/
theorem crv3_relabeling_changes_vcov_code_bug :
    (getVcovF sscOne refitZero stA (.dict "CRV3" "cl")).1.vcov = some !![(2 : ℝ)]
    ∧ (getVcovF sscOne refitZero stB (.dict "CRV3" "cl")).1.vcov = some !![(0 : ℝ)]
    ∧ (∀ i : Fin 4, labB i = if labA i = 0 then 5 else 7)
    ∧ (getVcovF sscOne refitZero stA (.dict "CRV3" "cl")).1.vcov
        ≠ (getVcovF sscOne refitZero stB (.dict "CRV3" "cl")).1.vcov := by
  refine ⟨crv3A_eval, crv3B_eval, by decide, ?_⟩
  rw [crv3A_eval, crv3B_eval]
  intro h
  have h2 := congrFun (congrFun (Option.some.inj h) 0) 0
  simp at h2

/-! ### C4 -/

theorem tZZiv : Zivᵀ * Ziv = !![(2 : ℝ)] := by
  ext i j; fin_cases i; fin_cases j
  simp [Ziv, Matrix.mul_apply, Fin.sum_univ_two, Matrix.vecHead, Matrix.vecTail]
  norm_num

theorem tZyiv : Zivᵀ * Yiv = !![(4 : ℝ)] := by
  ext i j; fin_cases i; fin_cases j
  simp [Ziv, Yiv, Matrix.mul_apply, Fin.sum_univ_two, Matrix.vecHead, Matrix.vecTail]
  norm_num

theorem betaIV : (getFit Yiv Ziv Ziv).beta_hat = fun _ => (2 : ℝ) := by
  funext j
  have h : (getFit Yiv Ziv Ziv).beta_hat j = ((Zivᵀ * Ziv)⁻¹ * (Zivᵀ * Yiv)) j 0 := rfl
  rw [h, tZZiv, tZyiv, inv_one_by_one]
  fin_cases j
  simp [Matrix.mul_apply]
  norm_num

theorem uIV : (getFit Yiv Ziv Ziv).u_hat = ![-(1 : ℝ), 1] := by
  funext i
  have h : (getFit Yiv Ziv Ziv).u_hat i
      = Yiv i 0 - Ziv.mulVec (getFit Yiv Ziv Ziv).beta_hat i := rfl
  rw [h, betaIV]
  fin_cases i <;>
    simp [Yiv, Ziv, Matrix.mulVec, dotProduct, Fin.sum_univ_one, Matrix.vecHead,
      Matrix.vecTail] <;> norm_num

theorem firstStage_eval :
    firstStageVcovF sscOne refitZero stIV (.str "iid") = some !![(1 : ℝ)] := by
  have h1 : firstStageVcovF sscOne refitZero stIV (.str "iid")
      = some ((1 * ((∑ i, (getFit Yiv Ziv Ziv).u_hat i ^ 2) / ((2 : ℝ) - 1))) •
          (getFit Yiv Ziv Ziv).hessian⁻¹) := rfl
  have hh : (getFit Yiv Ziv Ziv).hessian = !![(2 : ℝ)] := by
    have h : (getFit Yiv Ziv Ziv).hessian = Zivᵀ * Ziv := rfl
    rw [h, tZZiv]
  rw [h1, uIV, hh, inv_one_by_one]
  refine congrArg some ?_
  ext a b; fin_cases a; fin_cases b
  simp [Fin.sum_univ_two, Matrix.vecHead, Matrix.vecTail]
  norm_num

theorem ftest_code_eval : getFtestF sscOne refitZero stIV (.str "iid") = 1 := by
  have hbeta : stIV.beta_hat = fun _ => (2 : ℝ) := betaIV
  have hv : stIV.vcov = some !![(4 : ℝ)] := rfl
  simp only [getFtestF, hbeta, hv, Option.getD_some]
  simp [Matrix.mul_apply, Fin.sum_univ_one, Matrix.transpose_apply]
  norm_num

theorem ftest_spec_eval : getFtestSpecIV sscOne refitZero stIV (.str "iid") = 4 := by
  have hbeta : stIV.beta_hat = fun _ => (2 : ℝ) := betaIV
  simp only [getFtestSpecIV, hbeta, firstStage_eval, Option.getD_some]
  simp [Matrix.mul_apply, Fin.sum_univ_one, Matrix.transpose_apply]
  norm_num

/-- C4 (code bug): on the IV-flagged state `stIV` (stored covariance `[[4]]`,
`β = 2`), `get_Ftest` computes the first-stage regression's iid covariance
(`[[1]]`) and binds it to a local variable, but the F statistic is then computed
from `self.vcov` anyway: the code returns `F = 2 · 4⁻¹ · 2 = 1`, while the
statistic computed against the first-stage covariance — the behaviour the
docstring and spec describe — is `2 · 1⁻¹ · 2 = 4`. -/
theorem ftest_ignores_first_stage_vcov_code_bug :
    getFtestF sscOne refitZero stIV (.str "iid") = 1
    ∧ stIV.is_iv = true
    ∧ firstStageVcovF sscOne refitZero stIV (.str "iid") = some !![(1 : ℝ)]
    ∧ getFtestSpecIV sscOne refitZero stIV (.str "iid") = 4
    ∧ (1 : ℝ) ≠ 4 :=
  ⟨ftest_code_eval, rfl, firstStage_eval, ftest_spec_eval, by norm_num⟩

/-! ### C8 -/

/-- C8: `get_inference` computes each standard error as the square root of the
covariance diagonal, each statistic as `β_i / se_i`, uses `N − k` degrees of
freedom for iid/hetero and `G − 1` for clustered inference, two-sided p-values
`2(1 − F(|t|))` under Student-t for the `feols` family and the standard normal
otherwise, and the symmetric confidence interval `β_i ± z·se_i` at the critical
value `z` of the chosen distribution. -/
theorem get_inference_formulas {kk : ℕ} (tcdf : ℝ → ℤ → ℝ) (tppf : ℝ → ℤ → ℝ)
    (ncdf nppf : ℝ → ℝ) (vcov : Mat kk kk) (beta_hat : Fin kk → ℝ)
    (vcov_type : String) (N k : ℕ) (G : Option ℕ) (method : String) (alpha : ℝ) :
    (getInferenceF tcdf tppf ncdf nppf vcov beta_hat vcov_type N k G method alpha).se
        = (fun i => Real.sqrt (vcov i i))
    ∧ (getInferenceF tcdf tppf ncdf nppf vcov beta_hat vcov_type N k G method alpha).tstat
        = (fun i => beta_hat i / Real.sqrt (vcov i i))
    ∧ ((vcov_type = "iid" ∨ vcov_type = "hetero") → method = "feols" →
        (getInferenceF tcdf tppf ncdf nppf vcov beta_hat vcov_type N k G method alpha).pvalue
          = fun i => 2 * (1 - tcdf
              |(getInferenceF tcdf tppf ncdf nppf vcov beta_hat vcov_type N k G method
                  alpha).tstat i| ((N : ℤ) - (k : ℤ))))
    ∧ (¬ (vcov_type = "iid" ∨ vcov_type = "hetero") → method = "feols" →
        ∀ g : ℕ, G = some g →
        (getInferenceF tcdf tppf ncdf nppf vcov beta_hat vcov_type N k G method alpha).pvalue
          = fun i => 2 * (1 - tcdf
              |(getInferenceF tcdf tppf ncdf nppf vcov beta_hat vcov_type N k G method
                  alpha).tstat i| ((g : ℤ) - 1)))
    ∧ (method ≠ "feols" →
        (getInferenceF tcdf tppf ncdf nppf vcov beta_hat vcov_type N k G method alpha).pvalue
          = fun i => 2 * (1 - ncdf
              |(getInferenceF tcdf tppf ncdf nppf vcov beta_hat vcov_type N k G method
                  alpha).tstat i|))
    ∧ (∃ z : ℝ,
        z = (if method = "feols"
          then |tppf ((1 - alpha) / 2)
              (if vcov_type = "iid" ∨ vcov_type = "hetero" then (N : ℤ) - (k : ℤ)
               else ((G.getD 0 : ℕ) : ℤ) - 1)|
          else |nppf ((1 - alpha) / 2)|)
        ∧ (getInferenceF tcdf tppf ncdf nppf vcov beta_hat vcov_type N k G method
            alpha).conf_low = (fun i => beta_hat i - z *
              (getInferenceF tcdf tppf ncdf nppf vcov beta_hat vcov_type N k G method
                alpha).se i)
        ∧ (getInferenceF tcdf tppf ncdf nppf vcov beta_hat vcov_type N k G method
            alpha).conf_high = (fun i => beta_hat i + z *
              (getInferenceF tcdf tppf ncdf nppf vcov beta_hat vcov_type N k G method
                alpha).se i)) := by
  refine ⟨rfl, rfl, ?_, ?_, ?_, ?_⟩
  · intro h hm
    funext i
    simp [getInferenceF, h, hm]
  · intro h hm g hG
    funext i
    simp [getInferenceF, h, hm, hG]
  · intro hm
    funext i
    simp [getInferenceF, hm]
  · refine ⟨_, rfl, rfl, rfl⟩

/-- Witness for `get_inference_formulas`: the iid/feols p-value clause at a
concrete instantiation. -/
theorem get_inference_formulas_witness :
    ("iid" = "iid" ∨ "iid" = "hetero")
    ∧ (getInferenceF (fun _ _ => (0 : ℝ)) (fun _ _ => 0) (fun _ => 0) (fun _ => 0)
        (!![1] : Mat 1 1) (fun _ => 1) "iid" 4 1 none "feols" 0.95).pvalue
      = fun i => 2 * (1 - (fun _ _ => (0 : ℝ))
          |(getInferenceF (fun _ _ => (0 : ℝ)) (fun _ _ => 0) (fun _ => 0) (fun _ => 0)
              (!![1] : Mat 1 1) (fun _ => 1) "iid" 4 1 none "feols" 0.95).tstat i|
          ((4 : ℤ) - (1 : ℤ))) :=
  ⟨Or.inl rfl,
    (get_inference_formulas (fun _ _ => (0 : ℝ)) (fun _ _ => 0) (fun _ => 0) (fun _ => 0)
        (!![1] : Mat 1 1) (fun _ => 1) "iid" 4 1 none "feols" 0.95).2.2.1
      (Or.inl rfl) rfl⟩

end PyFixest
